import Mathlib

/-!
Verification of the MQTT weather-station messaging core
(`src/weather-station/src/mqtt/mqtt-service.ts` and
`src/weather-station/src/api/server.ts`) against its specification.

The TypeScript code is shallowly embedded: each handler or loop becomes a
pure Lean function on an explicit state, JavaScript `Map`s become
association lists, timers become explicit events, and `JSON.parse` of an
untrusted payload becomes an abstract parameter `parse : String → Option α`
(so that both parse success and parse failure are expressible).  Times are
naturals counting milliseconds.  The file first lays out all definitions,
then the theorems about them.
-/

namespace MQTTSystem

/-! ## Definitions: flow-controlled publish queue
(`mqtt-service.ts`, `publish` / `processMessageQueue`) -/

/-- An outbound message as stored in `messageQueue`: topic and serialized
body (the publish options do not influence ordering or timing and are
omitted from the queue model). -/
structure OutMsg where
  topic : String
  message : String
  deriving DecidableEq, Repr

/-- Rate limit `MAX_MESSAGES_PER_SECOND = 10` from `mqtt-service.ts`. -/
def MAX_MESSAGES_PER_SECOND : Nat := 10

/-- Window length of the rate limiter: the drain waits
`setTimeout(resolve, 1000)` milliseconds when the limit is reached. -/
def RATE_WINDOW_MS : Nat := 1000

/-- One run of the drain loop `processMessageQueue`, started with
`this.messageCount = count` and `pending` publish confirmations not yet
processed, at time `t` (ms).  Returns the sequence of transport publishes,
each paired with the time at which it is handed to `client.publish`.  Each
loop iteration first checks `messageCount >= MAX_MESSAGES_PER_SECOND`; if
so it awaits one window, sets `messageCount = 0`, then shifts and
publishes; otherwise it shifts and publishes immediately.  The
`this.messageCount++` of the source runs in the `client.publish`
confirmation callback — for the QoS 1/2 traffic this app enqueues, the
broker's PUBACK/PUBCOMP — an inbound event the single-threaded runtime
can process only while the drain is suspended in its `await` or after it
returns, never during the synchronous loop iterations.  So along a run the
counter changes only at the rate-limit branch: whatever confirmations fire
during the one-second suspension are immediately superseded by the
`this.messageCount = 0` reset after it, and each publish merely adds one
pending confirmation. -/
def processMessageQueue (count pending : Nat) (t : Nat) :
    List OutMsg → List (OutMsg × Nat)
  | [] => []
  | m :: rest =>
    if MAX_MESSAGES_PER_SECOND ≤ count then
      (m, t + RATE_WINDOW_MS) ::
        processMessageQueue 0 (pending + 1) (t + RATE_WINDOW_MS) rest
    else
      (m, t) :: processMessageQueue count (pending + 1) t rest

/-! ## Definitions: interleaving model of `publish` / `processMessageQueue`

The drain loop runs on the single-threaded event loop: control can change
hands only at `await` points.  Each `Step` below is one of the atomic
blocks of `publish` and `processMessageQueue`, and any number of drain
invocations may in principle coexist (the `drains` list), so that the
single-instance property is a theorem rather than an assumption. -/

namespace QueueSys

/-- Resumption point of one invocation of `processMessageQueue`: `top` is
the `while (this.messageQueue.length > 0)` check, `waiting` is suspension
inside `await new Promise(resolve => setTimeout(resolve, 1000))`. -/
inductive DrainPC where
  | top
  | waiting
  deriving DecidableEq, Repr

/-- The `MqttService` fields involved in flow control: `messageQueue`,
`processingQueue`, `messageCount`, plus the set of live
`processMessageQueue` invocations and a flag recording whether
`messageQueue.shift()!` ever executed on an empty queue (which in the
JavaScript source would destructure `undefined` and throw). -/
structure State where
  queue : List OutMsg
  processing : Bool
  count : Nat
  drains : List DrainPC
  crashed : Bool
  deriving DecidableEq, Repr

/-- Fresh service: empty queue, `processingQueue = false`, `messageCount = 0`. -/
def init : State := ⟨[], false, 0, [], false⟩

/-- Atomic steps of the flow-control code.  `publish` appends to the queue
and, if `processingQueue` is false, synchronously enters
`processMessageQueue`, which sets the flag before its first `await`.  A
drain at `top` either exits (empty queue: clear flag, return), shifts and
publishes one message (counter below the limit), or suspends for one rate
window (counter at the limit).  A suspended drain wakes by zeroing the
counter and then unconditionally executing `shift()!` — on an empty queue
that is the crash the claim rules out. -/
inductive Step : State → State → Prop where
  | publish (s : State) (m : OutMsg) (h : s.processing = true) :
      Step s { s with queue := s.queue ++ [m] }
  | publishStart (s : State) (m : OutMsg) (h : s.processing = false) :
      Step s { queue := s.queue ++ [m], processing := true, count := s.count,
               drains := s.drains ++ [DrainPC.top], crashed := s.crashed }
  | drainDone (s : State) (l r : List DrainPC)
      (hd : s.drains = l ++ DrainPC.top :: r) (hq : s.queue = []) :
      Step s { s with processing := false, drains := l ++ r }
  | drainShift (s : State) (l r : List DrainPC) (m : OutMsg) (rest : List OutMsg)
      (hd : s.drains = l ++ DrainPC.top :: r) (hq : s.queue = m :: rest)
      (hc : s.count < MAX_MESSAGES_PER_SECOND) :
      Step s { s with queue := rest, count := s.count + 1 }
  | drainToWait (s : State) (l r : List DrainPC) (m : OutMsg) (rest : List OutMsg)
      (hd : s.drains = l ++ DrainPC.top :: r) (hq : s.queue = m :: rest)
      (hc : MAX_MESSAGES_PER_SECOND ≤ s.count) :
      Step s { s with drains := l ++ DrainPC.waiting :: r }
  | drainWake (s : State) (l r : List DrainPC) (m : OutMsg) (rest : List OutMsg)
      (hd : s.drains = l ++ DrainPC.waiting :: r) (hq : s.queue = m :: rest) :
      Step s { s with queue := rest, count := 1, drains := l ++ DrainPC.top :: r }
  | drainWakeCrash (s : State) (l r : List DrainPC)
      (hd : s.drains = l ++ DrainPC.waiting :: r) (hq : s.queue = []) :
      Step s { s with count := 0, drains := l ++ DrainPC.top :: r, crashed := true }

/-- States reachable from a fresh service by any interleaving of publishes
and drain steps. -/
def Reachable (s : State) : Prop := Relation.ReflTransGen Step init s

/-- Inductive invariant: no crash, at most one live drain, no drain when
the flag is clear, and a suspended drain always has a non-empty queue
ahead of it. -/
def Inv (s : State) : Prop :=
  s.crashed = false ∧
  s.drains.length ≤ 1 ∧
  (s.processing = false → s.drains = []) ∧
  (∀ pc ∈ s.drains, pc = DrainPC.waiting → s.queue ≠ [])

end QueueSys

/-! ## Definitions: control-channel handler
(`server.ts`, `weather/control` branch of the `mqttClient.on('message')`
handler) -/

/-- A parsed control payload: the value of `data.action`, with
`data.messagesPerSecond` for `setRate`. -/
inductive ControlAction where
  | pause
  | resume
  | setRate (messagesPerSecond : Nat)
  | unknown (action : String)
  deriving DecidableEq, Repr

/-- Acknowledgment payload published on `weather/control/ack`. -/
inductive ControlAck where
  | paused
  | resumed
  | rateChanged (rate : Nat)
  deriving DecidableEq, Repr

/-- Server state the control branch can touch: whether the periodic sensor
broadcast is live (`sensorDataInterval !== null`), and the MQTT service's
rate limit (`MAX_MESSAGES_PER_SECOND`, a `readonly` field of
`MqttService`). -/
structure ServerState where
  broadcasting : Bool
  rateLimit : Nat
  deriving DecidableEq, Repr

/-- The `weather/control` branch: `pause` clears `sensorDataInterval` and
acknowledges, but only when an interval is live; `resume` calls
`startDataBroadcast()` (idempotent) and always acknowledges; `setRate`
logs and acknowledges with the requested rate — it writes nothing;
any other action falls through the `if` chain. -/
def handleControl (a : ControlAction) (s : ServerState) : ServerState × List ControlAck :=
  match a with
  | ControlAction.pause =>
      if s.broadcasting then
        ({ s with broadcasting := false }, [ControlAck.paused])
      else (s, [])
  | ControlAction.resume =>
      ({ s with broadcasting := true }, [ControlAck.resumed])
  | ControlAction.setRate r => (s, [ControlAck.rateChanged r])
  | ControlAction.unknown _ => (s, [])

/-! ## Definitions: association-list view of the JavaScript `Map`s
(`retainedMessageCleanup`, `pingTimestamps`) -/

/-- Association-list lookup (`Map.get` / `Map.has`). -/
def lookupKey (k : String) : List (String × Nat) → Option Nat
  | [] => none
  | (k', v) :: rest => if k' = k then some v else lookupKey k rest

/-- Number of entries a key holds in the list (for a JavaScript `Map` this
is 0 or 1 by construction; here it is proved). -/
def countKey (k : String) : List (String × Nat) → Nat
  | [] => 0
  | (k', _) :: rest => (if k' = k then 1 else 0) + countKey k rest

/-- Removal of a key's entries (`Map.delete`, or the implicit replacement
a `Map.set` of an existing key performs). -/
def eraseKey (k : String) : List (String × Nat) → List (String × Nat)
  | [] => []
  | (k', v) :: rest =>
      if k' = k then eraseKey k rest else (k', v) :: eraseKey k rest

/-- `Map.set`: any previous entry of the key is superseded. -/
def setKey (k : String) (v : Nat) (m : List (String × Nat)) : List (String × Nat) :=
  (k, v) :: eraseKey k m

/-! ## Definitions: retained-message expiry simulator
(`server.ts`, `simulateMessageExpiry`) -/

/-- Expiry window of the simulator: `setTimeout(..., 5000)`. -/
def EXPIRY_MS : Nat := 5000

/-- `simulateMessageExpiry(topic)` at time `now`: clear any existing
timeout for the topic (`clearTimeout`), then arm a fresh one firing at
`now + 5000`; the map `retainedMessageCleanup` sends the topic to the
armed deadline. -/
def simulateMessageExpiry (topic : String) (now : Nat)
    (timers : List (String × Nat)) : List (String × Nat) :=
  (topic, now + EXPIRY_MS) :: eraseKey topic timers

/-- An armed timeout `(topic, d)` can fire only if it was not cancelled,
i.e. the cleanup map still carries exactly that deadline for the topic. -/
def canFire (topic : String) (d : Nat) (timers : List (String × Nat)) : Prop :=
  lookupKey topic timers = some d

instance (topic : String) (d : Nat) (timers : List (String × Nat)) :
    Decidable (canFire topic d timers) := by
  unfold canFire
  infer_instance

/-- A publish on the broker as issued by the expiry callback: empty
payload, retain flag set. -/
structure RetainPublish where
  topic : String
  payload : String
  retain : Bool
  deriving DecidableEq, Repr

/-- Body of the expiry timeout: publish an empty retained payload to the
same topic and delete the map entry. -/
def expiryFire (topic : String) (timers : List (String × Nat)) :
    List (String × Nat) × RetainPublish :=
  (eraseKey topic timers, ⟨topic, "", true⟩)

/-! ## Definitions: latency probe, ping/pong
(`mqtt-service.ts`, `setupListeners` and `sendPing`; `server.ts`,
dedicated ping responder) -/

/-- Parsed payload of a `weather/ping` message.  A field the JSON lacks is
modelled as the empty string (both are falsy to the source's checks). -/
structure PingMsg where
  clientId : String
  timestamp : String
  correlationId : String
  deriving DecidableEq, Repr

/-- Parsed payload of a `weather/pong` message. -/
structure PongMsg where
  responderId : String
  originalSender : String
  correlationId : String
  originalTimestamp : String
  timestamp : String
  deriving DecidableEq, Repr

/-- The `pong` event `MqttService` emits when a pong is accepted. -/
structure PongEvent where
  latency : Nat
  responderId : String
  deriving DecidableEq, Repr

/-- The `weather/ping` branch of `MqttService.setupListeners` on a parsed
ping: respond with a pong — own identity, same correlation id, a copy of
the original timestamp — unless the ping came from this client. -/
def handlePing (selfId : String) (now : String) (data : PingMsg) : List PongMsg :=
  if data.clientId ≠ selfId then
    [⟨selfId, data.clientId, data.correlationId, data.timestamp, now⟩]
  else []

/-- The dedicated ping responder in `server.ts`: it always responds
("this is our dedicated responder"), with no check of the sender. -/
def pingResponderHandle (selfId : String) (now : String) (data : PingMsg) :
    List PongMsg :=
  [⟨selfId, data.clientId, data.correlationId, data.timestamp, now⟩]

/-- The `weather/pong` branch of `MqttService.setupListeners` on a parsed
pong: accept when `data.correlationId` is truthy, an entry for it is
pending in `pingTimestamps`, and `data.originalSender` is this client;
then compute the latency, emit the `pong` event and delete the entry.
The responder identity is not inspected. -/
def handlePong (selfId : String) (nowMs : Nat) (pings : List (String × Nat))
    (data : PongMsg) : List (String × Nat) × List PongEvent :=
  match lookupKey data.correlationId pings with
  | some startTime =>
      if data.correlationId ≠ "" ∧ data.originalSender = selfId then
        (eraseKey data.correlationId pings, [⟨nowMs - startTime, data.responderId⟩])
      else (pings, [])
  | none => (pings, [])

/-- The full `weather/ping` branch on the raw payload: `JSON.parse` inside
`try` — a parse failure is caught and logged, no pong is published. -/
def pingListener (selfId now : String) (parsePing : String → Option PingMsg)
    (body : String) : List PongMsg :=
  match parsePing body with
  | some data => handlePing selfId now data
  | none => []

/-- The full `weather/pong` branch on the raw payload: a parse failure is
caught and logged — the pending map is untouched, nothing is emitted. -/
def pongListener (selfId : String) (nowMs : Nat)
    (parsePong : String → Option PongMsg) (pings : List (String × Nat))
    (body : String) : List (String × Nat) × List PongEvent :=
  match parsePong body with
  | some data => handlePong selfId nowMs pings data
  | none => (pings, [])

/-- Correlation-id generation in `sendPing`: "ping-" plus `Date.now()`
plus "-" plus `Math.floor(Math.random() * 1000)`. -/
def genPingId (timeMs rand : Nat) : String :=
  "ping-" ++ toString timeMs ++ "-" ++ toString rand

/-- Effect of `sendPing` on `pingTimestamps`, plus the ping payload it
publishes; `id` is the generated correlation id and `now` the current
time.  `Map.set` supersedes any existing entry for the id. -/
def sendPing (selfId id : String) (now : Nat) (pings : List (String × Nat)) :
    List (String × Nat) × PingMsg :=
  (setKey id now pings, ⟨selfId, toString now, id⟩)

/-- The 5-second cleanup timeout armed by `sendPing`: if the id is still
pending, delete it and emit a `ping-timeout` event for it. -/
def pingTimeoutFire (id : String) (pings : List (String × Nat)) :
    List (String × Nat) × List String :=
  match lookupKey id pings with
  | some _ => (eraseKey id pings, [id])
  | none => (pings, [])

/-- One event in the life of the latency probe. -/
inductive PingOp where
  | send (id : String) (now : Nat)
  | pong (data : PongMsg) (now : Nat)
  | timeoutFire (id : String)
  deriving DecidableEq, Repr

/-- Probe state along a trace: the `pingTimestamps` map, the log of
resolutions (correlation id, true for a pong resolution / false for a
timeout), and a monitor flag `fresh` that turns false the moment `sendPing`
generates a correlation id that is already pending. -/
structure ProbeState where
  pending : List (String × Nat)
  resolutions : List (String × Bool)
  fresh : Bool
  deriving DecidableEq, Repr

/-- Fresh probe. -/
def probeInit : ProbeState := ⟨[], [], true⟩

/-- Trace step of the latency probe of client `selfId`. -/
def probeStep (selfId : String) (s : ProbeState) : PingOp → ProbeState
  | PingOp.send id now =>
      { pending := (sendPing selfId id now s.pending).1,
        resolutions := s.resolutions,
        fresh := s.fresh && (lookupKey id s.pending).isNone }
  | PingOp.pong data now =>
      let r := handlePong selfId now s.pending data
      { pending := r.1,
        resolutions := s.resolutions ++ r.2.map (fun _ => (data.correlationId, true)),
        fresh := s.fresh }
  | PingOp.timeoutFire id =>
      let r := pingTimeoutFire id s.pending
      { pending := r.1,
        resolutions := s.resolutions ++ r.2.map (fun i => (i, false)),
        fresh := s.fresh }

/-- Run of the probe over a trace of events. -/
def probeRun (selfId : String) (ops : List PingOp) : ProbeState :=
  ops.foldl (probeStep selfId) probeInit

/-- Resolutions logged for a correlation id. -/
def resCount (id : String) (rs : List (String × Bool)) : Nat :=
  (rs.filter (fun r => r.1 = id)).length

/-- Number of `send` events for a correlation id in a trace. -/
def sendCount (id : String) (ops : List PingOp) : Nat :=
  (ops.filter (fun op => match op with
    | PingOp.send i _ => i = id
    | _ => false)).length

/-- Contribution of one trace event to `sendCount`. -/
def sendDelta (id : String) : PingOp → Nat
  | PingOp.send i _ => if i = id then 1 else 0
  | _ => 0

/-! ## Definitions: request/response (`mqtt-service.ts`, `request`) -/

/-- An inbound transport message as a `message` listener sees it: topic,
raw payload, and the MQTT 5.0 `correlationData` property when present. -/
structure Packet where
  topic : String
  body : String
  correlationData : Option String
  deriving DecidableEq, Repr

/-- Settlement state of one `request(...)` promise. -/
inductive ReqState (α : Type) where
  | pending
  | resolved (v : α)
  | rejectedTimeout
  | rejectedInvalidJson
  deriving DecidableEq, Repr

/-- The one-time `responseHandler` of `request`: on the response topic,
with correlation data present and equal to the request's, settle the
promise — with the parsed payload when `JSON.parse` succeeds, with the
`Invalid JSON response` rejection when it throws.  A missing or mismatched
correlation id is logged and ignored.  A settled promise is unaffected by
further events (a promise settles at most once). -/
def responseHandler {α : Type} (responseTopic correlationData : String)
    (parse : String → Option α) (s : ReqState α) (p : Packet) : ReqState α :=
  match s with
  | ReqState.pending =>
    if p.topic = responseTopic then
      match p.correlationData with
      | some received =>
          if received = correlationData then
            match parse p.body with
            | some v => ReqState.resolved v
            | none => ReqState.rejectedInvalidJson
          else ReqState.pending
      | none => ReqState.pending
    else ReqState.pending
  | s => s

/-- The deadline timer of `request`: reject a still-pending promise with
the timeout error; a settled promise is unaffected (on resolution the
timer is cleared, and a rejection already settled the promise). -/
def reqTimeoutFire {α : Type} (s : ReqState α) : ReqState α :=
  match s with
  | ReqState.pending => ReqState.rejectedTimeout
  | s => s

/-- Processing of one inbound event during a request with deadline `D`:
the deadline timer fires before any event arriving at time `≥ D`, then the
`responseHandler` sees the event. -/
def runReqStep {α : Type} (rt cd : String) (parse : String → Option α)
    (D : Nat) (s : ReqState α) (e : Nat × Packet) : ReqState α :=
  responseHandler rt cd parse (if D ≤ e.1 then reqTimeoutFire s else s) e.2

/-- One whole request with deadline `D`: `events` are the inbound messages
in time order, each paired with its arrival time; the deadline timer fires
before any event at time `≥ D`, and at the latest after the last event. -/
def runRequest {α : Type} (rt cd : String) (parse : String → Option α)
    (D : Nat) (events : List (Nat × Packet)) : ReqState α :=
  reqTimeoutFire (events.foldl (runReqStep rt cd parse D) ReqState.pending)

/-- A concrete stand-in for `JSON.parse` used in witnesses and
counterexamples: it accepts exactly the body `42`. -/
def parse42 : String → Option Nat :=
  fun s => if s = "42" then some 42 else none

/-! ## Definitions: request handler registration
(`mqtt-service.ts`, `onRequest`) -/

/-- An inbound message as `onRequest`'s `requestHandler` sees it: topic,
raw body, and the MQTT 5.0 properties `responseTopic` / `correlationData`
(absent when the publisher did not set them). -/
structure ReqPacket where
  topic : String
  body : String
  responseTopic : Option String
  correlationData : Option String
  deriving DecidableEq, Repr

/-- Payload of a response publish: the serialized handler result, or the
error object built in the `catch` block (its `message` field; the
`JSON.parse` syntax-error message is abstracted to the constant
`invalid request JSON`). -/
inductive RespPayload (β : Type) where
  | ok (v : β)
  | err (message : String)
  deriving DecidableEq, Repr

/-- A publish issued by the request handler: response topic, echoed
correlation data, payload. -/
structure RespPublish (β : Type) where
  topic : String
  correlationData : String
  payload : RespPayload β
  deriving DecidableEq, Repr

/-- The `requestHandler` closure registered by
`onRequest(requestTopic, handler)` on one inbound message: when the topic
matches and both MQTT 5.0 properties are present, parse the body and call
the handler; its result — or, when it throws, an error payload — is
published to the response topic with the correlation data echoed; when the
body itself fails to parse the `catch` publishes an error payload without
calling the handler; a message missing either property is ignored.
Returns the publishes and the number of handler invocations. -/
def onRequestHandle {α β : Type} (requestTopic : String)
    (parse : String → Option α) (handler : α → Except String β)
    (m : ReqPacket) : List (RespPublish β) × Nat :=
  if m.topic = requestTopic then
    match m.responseTopic, m.correlationData with
    | some rt, some cd =>
        match parse m.body with
        | some req =>
            match handler req with
            | Except.ok v => ([⟨rt, cd, RespPayload.ok v⟩], 1)
            | Except.error e => ([⟨rt, cd, RespPayload.err e⟩], 1)
        | none => ([⟨rt, cd, RespPayload.err "invalid request JSON"⟩], 0)
    | _, _ => ([], 0)
  else ([], 0)

/-- The property name `onRequest` stores the handler under:
"request-handler-" plus the topic plus "-" plus `Date.now()`. -/
def handlerName (requestTopic : String) (nowMs : Nat) : String :=
  "request-handler-" ++ requestTopic ++ "-" ++ toString nowMs

/-- The listener registrations of one `MqttService`: the `message`
listeners added with `client.on` (each `requestHandler` is identified by
its request topic), and the named-property table the handler references
are stored in. -/
structure HandlerRegistry where
  listeners : List String
  named : List (String × String)
  deriving DecidableEq, Repr

/-- `onRequest(requestTopic, handler)`: store the handler under a
time-stamped property name and add it as a `message` listener.
`client.on` appends unconditionally. -/
def onRequestRegister (requestTopic : String) (nowMs : Nat)
    (r : HandlerRegistry) : HandlerRegistry :=
  { listeners := r.listeners ++ [requestTopic],
    named := (handlerName requestTopic nowMs, requestTopic) :: r.named }

/-- Delivery of one inbound message: the event emitter invokes every
registered `message` listener, each running `onRequestHandle` for its
topic; the publishes and handler invocations accumulate. -/
def dispatchRequest {α β : Type} (parse : String → Option α)
    (handler : α → Except String β) (r : HandlerRegistry) (m : ReqPacket) :
    List (RespPublish β) × Nat :=
  r.listeners.foldl
    (fun acc t =>
      let one := onRequestHandle t parse handler m
      (acc.1 ++ one.1, acc.2 + one.2))
    ([], 0)

/-! ## Theorems: flow-controlled publish queue (C1) -/

theorem processMessageQueue_length (count pending t : Nat) (q : List OutMsg) :
    (processMessageQueue count pending t q).length = q.length := by
  induction q generalizing count pending t with
  | nil => rfl
  | cons m rest ih =>
    unfold processMessageQueue
    by_cases h : MAX_MESSAGES_PER_SECOND ≤ count <;>
      simp [h, ih]

/-- FIFO: the drain hands messages to the transport in exact enqueue order. -/
theorem processMessageQueue_fifo (count pending t : Nat) (q : List OutMsg) :
    (processMessageQueue count pending t q).map Prod.fst = q := by
  induction q generalizing count pending t with
  | nil => rfl
  | cons m rest ih =>
    unfold processMessageQueue
    by_cases h : MAX_MESSAGES_PER_SECOND ≤ count <;>
      simp [h, ih]

/-- With the counter below the limit at loop entry the guard never trips
during the run — the counter cannot advance mid-loop, since the publish
confirmations that would advance it stay pending until the loop ends — so
every message of the burst is handed to the transport at the same tick. -/
theorem processMessageQueue_no_wait (count pending t : Nat) (q : List OutMsg)
    (h : count < MAX_MESSAGES_PER_SECOND) :
    (processMessageQueue count pending t q).map Prod.snd
      = List.replicate q.length t := by
  induction q generalizing pending with
  | nil => rfl
  | cons m rest ih =>
    unfold processMessageQueue
    rw [if_neg (not_le_of_lt h)]
    simp [ih, List.replicate_succ]

/-- A drain entered with the counter at or above the limit suspends
exactly once, at its very start: the `messageCount = 0` reset after the
wait keeps the guard from tripping again, so the entire queue leaves in a
single tick one window later. -/
theorem processMessageQueue_one_wait (count pending t : Nat) (q : List OutMsg)
    (h : MAX_MESSAGES_PER_SECOND ≤ count) :
    (processMessageQueue count pending t q).map Prod.snd
      = List.replicate q.length (t + RATE_WINDOW_MS) := by
  cases q with
  | nil => rfl
  | cons m rest =>
    unfold processMessageQueue
    rw [if_pos h]
    simp [processMessageQueue_no_wait 0 (pending + 1) (t + RATE_WINDOW_MS) rest
      (by norm_num [MAX_MESSAGES_PER_SECOND]), List.replicate_succ]

/-- C1: the rate limit is ineffective within a burst.  15 messages
enqueued at once on a fresh service (counter 0, no pending confirmations)
are all handed to the transport in the same tick — in FIFO order, but with
no one-second suspension before messages 10 to 14, where the claim
requires the last five to leave at least one window later than the first
ten. -/
theorem queue_burst_single_tick :
    (processMessageQueue 0 0 0 (List.replicate 15 ⟨"weather/all", "d"⟩)).map Prod.fst
        = List.replicate 15 ⟨"weather/all", "d"⟩ ∧
    (processMessageQueue 0 0 0 (List.replicate 15 ⟨"weather/all", "d"⟩)).map Prod.snd
        = List.replicate 15 0 := by
  exact ⟨by decide, by decide⟩

/-! ## Theorems: single drain instance and safe dequeue (C10) -/

namespace QueueSys

theorem parts_nil_of_length_le_one {α : Type} (l r : List α) (x : α)
    (h : (l ++ x :: r).length ≤ 1) : l = [] ∧ r = [] := by
  cases l with
  | nil =>
    cases r with
    | nil => exact ⟨rfl, rfl⟩
    | cons b r => simp at h
  | cons a l => simp at h

theorem Inv_init : Inv init := by
  refine ⟨rfl, by simp [init], fun _ => rfl, ?_⟩
  intro pc hpc
  simp [init] at hpc

theorem Inv_step (s s' : State) (hs : Inv s) (h : Step s s') : Inv s' := by
  obtain ⟨hcr, hlen, hproc, hwait⟩ := hs
  cases h with
  | publish m h =>
      refine ⟨hcr, hlen, ?_, ?_⟩
      · intro hp
        exact hproc hp
      · intro pc hpc _
        simp
  | publishStart m h =>
      have hnil : s.drains = [] := hproc h
      refine ⟨hcr, by simp [hnil], by simp, ?_⟩
      intro pc hpc hw
      rw [hnil] at hpc
      simp at hpc
      rw [hpc] at hw
      exact absurd hw (by simp)
  | drainDone l r hd hq =>
      obtain ⟨hl, hr⟩ := parts_nil_of_length_le_one l r _ (hd ▸ hlen)
      subst hl; subst hr
      refine ⟨hcr, by simp, by simp, ?_⟩
      intro pc hpc
      simp at hpc
  | drainShift l r m rest hd hq hc =>
      obtain ⟨hl, hr⟩ := parts_nil_of_length_le_one l r _ (hd ▸ hlen)
      subst hl; subst hr
      refine ⟨hcr, hlen, fun hp => hproc hp, ?_⟩
      intro pc hpc hw
      rw [hd] at hpc
      simp at hpc
      rw [hpc] at hw
      exact absurd hw (by simp)
  | drainToWait l r m rest hd hq hc =>
      obtain ⟨hl, hr⟩ := parts_nil_of_length_le_one l r _ (hd ▸ hlen)
      subst hl; subst hr
      refine ⟨hcr, by simp, ?_, ?_⟩
      · intro hp
        rw [hproc hp] at hd
        simp at hd
      · intro pc _ _
        simp [hq]
  | drainWake l r m rest hd hq =>
      obtain ⟨hl, hr⟩ := parts_nil_of_length_le_one l r _ (hd ▸ hlen)
      subst hl; subst hr
      refine ⟨hcr, by simp, ?_, ?_⟩
      · intro hp
        rw [hproc hp] at hd
        simp at hd
      · intro pc hpc hw
        simp at hpc
        rw [hpc] at hw
        exact absurd hw (by simp)
  | drainWakeCrash l r hd hq =>
      exact absurd hq (hwait DrainPC.waiting (by rw [hd]; simp) rfl)

theorem Inv_reachable (s : State) (h : Reachable s) : Inv s := by
  induction h with
  | refl => exact Inv_init
  | tail _ hstep ih => exact Inv_step _ _ ih hstep

end QueueSys

/-- C10: in every reachable state of the flow-control code, at most one
invocation of `processMessageQueue` is live (so the `processingQueue` flag
gives mutual exclusion of drains), a clear flag means no drain is live, and
the unchecked `messageQueue.shift()!` has never executed on an empty queue
(`crashed = false`). -/
theorem queue_drain_single_instance (s : QueueSys.State) (h : QueueSys.Reachable s) :
    s.crashed = false ∧ s.drains.length ≤ 1 ∧
    (s.processing = false → s.drains = []) := by
  obtain ⟨h1, h2, h3, _⟩ := QueueSys.Inv_reachable s h
  exact ⟨h1, h2, h3⟩

/-- Witness for C10: the state reached by a first `publish` on a fresh
service (which starts the drain) satisfies the invariant. -/
theorem queue_drain_single_instance_witness :
    (QueueSys.State.mk [⟨"weather/all", "d"⟩] true 0 [QueueSys.DrainPC.top] false).crashed
        = false ∧
    (QueueSys.State.mk [⟨"weather/all", "d"⟩] true 0 [QueueSys.DrainPC.top] false).drains.length
        ≤ 1 ∧
    ((QueueSys.State.mk [⟨"weather/all", "d"⟩] true 0 [QueueSys.DrainPC.top] false).processing
        = false →
      (QueueSys.State.mk [⟨"weather/all", "d"⟩] true 0 [QueueSys.DrainPC.top] false).drains
        = []) :=
  queue_drain_single_instance _
    (Relation.ReflTransGen.single
      (QueueSys.Step.publishStart QueueSys.init ⟨"weather/all", "d"⟩ rfl))

/-! ## Theorems: control-channel commands (C3) -/

/-- C3 counterexample: a `setRate 5` command leaves the drain's rate limit
at 10 (the claim says it mutates it), and a `pause` received while the
broadcast is already stopped publishes no acknowledgment (the claim says
every pause is acknowledged). -/
theorem control_claim_counterexample :
    (handleControl (ControlAction.setRate 5) ⟨true, 10⟩).1.rateLimit ≠ 5 ∧
    (handleControl ControlAction.pause ⟨false, 10⟩).2 = [] := by
  exact ⟨by decide, rfl⟩

/-- C3 (amended): `pause` halts the periodic sensor broadcast — not the
publish-queue drain — and acknowledges only when a broadcast was live;
`resume` restarts the broadcast and always acknowledges; `setRate`
acknowledges the requested rate but mutates nothing (in particular the
rate limit used by the drain window is unchanged); unknown actions are
ignored; no control action ever changes the rate limit. -/
theorem handleControl_spec (s : ServerState) (r : Nat) (a : String) :
    (handleControl ControlAction.pause s).1.broadcasting = false ∧
    ((handleControl ControlAction.pause s).2
        = if s.broadcasting then [ControlAck.paused] else []) ∧
    (handleControl ControlAction.resume s).1.broadcasting = true ∧
    (handleControl ControlAction.resume s).2 = [ControlAck.resumed] ∧
    (handleControl (ControlAction.setRate r) s).1 = s ∧
    (handleControl (ControlAction.setRate r) s).2 = [ControlAck.rateChanged r] ∧
    handleControl (ControlAction.unknown a) s = (s, []) ∧
    ∀ act : ControlAction, (handleControl act s).1.rateLimit = s.rateLimit := by
  refine ⟨?_, ?_, rfl, rfl, rfl, rfl, rfl, ?_⟩
  · by_cases h : s.broadcasting <;> simp [handleControl, h]
  · by_cases h : s.broadcasting <;> simp [handleControl, h]
  · intro act
    cases act with
    | pause => by_cases h : s.broadcasting <;> simp [handleControl, h]
    | resume => rfl
    | setRate r => rfl
    | unknown a => rfl

/-! ## Theorems: association-list lemmas shared by the expiry simulator
and the latency probe -/

theorem lookupKey_eraseKey (k : String) (timers : List (String × Nat)) :
    lookupKey k (eraseKey k timers) = none := by
  induction timers with
  | nil => rfl
  | cons p rest ih =>
    obtain ⟨k', v⟩ := p
    by_cases h : k' = k <;> simp [eraseKey, lookupKey, h, ih]

theorem lookupKey_eraseKey_ne (k k' : String) (h : k' ≠ k)
    (timers : List (String × Nat)) :
    lookupKey k' (eraseKey k timers) = lookupKey k' timers := by
  induction timers with
  | nil => rfl
  | cons p rest ih =>
    obtain ⟨k'', v⟩ := p
    by_cases h2 : k'' = k
    · subst h2
      have hkk : ¬ k'' = k' := fun hh => h hh.symm
      simp only [eraseKey, if_pos rfl, lookupKey, if_neg hkk]
      exact ih
    · by_cases h3 : k'' = k'
      · subst h3
        simp [eraseKey, lookupKey, h2]
      · simp only [eraseKey, if_neg h2, lookupKey, if_neg h3]
        exact ih

theorem countKey_eraseKey (k : String) (timers : List (String × Nat)) :
    countKey k (eraseKey k timers) = 0 := by
  induction timers with
  | nil => rfl
  | cons p rest ih =>
    obtain ⟨k', v⟩ := p
    by_cases h : k' = k <;> simp [eraseKey, countKey, h, ih]

theorem countKey_eraseKey_ne (k k' : String) (h : k' ≠ k)
    (timers : List (String × Nat)) :
    countKey k' (eraseKey k timers) = countKey k' timers := by
  induction timers with
  | nil => rfl
  | cons p rest ih =>
    obtain ⟨k'', v⟩ := p
    by_cases h2 : k'' = k
    · subst h2
      have hkk : ¬ k'' = k' := fun hh => h hh.symm
      simp [eraseKey, countKey, hkk, ih]
    · by_cases h3 : k'' = k'
      · subst h3
        simp [eraseKey, countKey, h2, ih]
      · simp [eraseKey, countKey, h2, h3, ih]

theorem lookupKey_none_iff_countKey_zero (k : String)
    (m : List (String × Nat)) :
    lookupKey k m = none ↔ countKey k m = 0 := by
  induction m with
  | nil => simp [lookupKey, countKey]
  | cons p rest ih =>
    obtain ⟨k', v⟩ := p
    by_cases h : k' = k <;> simp [lookupKey, countKey, h, ih]

/-! ## Theorems: retained-message expiry simulator (C7) -/

/-- C7: publishing to a simulated-expiry topic arms exactly one live timer
for that topic, firing one window after the publish; timers of other
topics are untouched; republishing before expiry cancels the previously
armed deadline, so the old timer can no longer fire and the retained value
is never cleared mid-window; when a timer does fire it publishes an empty
retained payload to the same topic and disarms itself. -/
theorem retained_expiry_debounce (topic t' : String) (now d : Nat)
    (timers : List (String × Nat)) :
    lookupKey topic (simulateMessageExpiry topic now timers)
        = some (now + EXPIRY_MS) ∧
    countKey topic (simulateMessageExpiry topic now timers) = 1 ∧
    (t' ≠ topic →
      lookupKey t' (simulateMessageExpiry topic now timers)
        = lookupKey t' timers) ∧
    (canFire topic d timers → d ≠ now + EXPIRY_MS →
      ¬ canFire topic d (simulateMessageExpiry topic now timers)) ∧
    (expiryFire topic timers).2 = ⟨topic, "", true⟩ ∧
    lookupKey topic (expiryFire topic timers).1 = none := by
  refine ⟨?_, ?_, ?_, ?_, rfl, ?_⟩
  · simp [simulateMessageExpiry, lookupKey]
  · simp [simulateMessageExpiry, countKey, countKey_eraseKey]
  · intro hne
    simp only [simulateMessageExpiry, lookupKey]
    rw [if_neg (fun hh => hne hh.symm)]
    exact lookupKey_eraseKey_ne topic t' hne timers
  · intro _ hne
    simp [canFire, simulateMessageExpiry, lookupKey]
    exact fun hh => hne hh.symm
  · exact lookupKey_eraseKey topic timers

/-- Witness for C7 at concrete inputs: topic `weather/pressure` republished
at time 2000 while a timer armed at time 0 (deadline 5000) is live. -/
theorem retained_expiry_debounce_witness :
    lookupKey "weather/pressure"
        (simulateMessageExpiry "weather/pressure" 2000 [("weather/pressure", 5000)])
        = some 7000 ∧
    countKey "weather/pressure"
        (simulateMessageExpiry "weather/pressure" 2000 [("weather/pressure", 5000)]) = 1 ∧
    ("weather/temperature" ≠ "weather/pressure" →
      lookupKey "weather/temperature"
        (simulateMessageExpiry "weather/pressure" 2000 [("weather/pressure", 5000)])
        = lookupKey "weather/temperature" [("weather/pressure", 5000)]) ∧
    (canFire "weather/pressure" 5000 [("weather/pressure", 5000)] → 5000 ≠ 7000 →
      ¬ canFire "weather/pressure" 5000
          (simulateMessageExpiry "weather/pressure" 2000 [("weather/pressure", 5000)])) ∧
    (expiryFire "weather/pressure" [("weather/pressure", 5000)]).2
        = ⟨"weather/pressure", "", true⟩ ∧
    lookupKey "weather/pressure"
        (expiryFire "weather/pressure" [("weather/pressure", 5000)]).1 = none := by
  have h := retained_expiry_debounce "weather/pressure" "weather/temperature" 2000 5000
    [("weather/pressure", 5000)]
  simpa [EXPIRY_MS] using h

/-! ## Theorems: ping/pong (C5) -/

/-- C5 counterexample: the dedicated ping responder answers a ping whose
clientId is its own — a self-ping is answered by the same node,
contradicting the claim that every receiver ignores self-pings. -/
theorem ping_responder_answers_self_ping :
    pingResponderHandle "ping-responder-1" "T1" ⟨"ping-responder-1", "T0", "c1"⟩
      = [⟨"ping-responder-1", "ping-responder-1", "c1", "T0", "T1"⟩] := rfl

/-- C5 (amended): `MqttService`'s own ping branch answers exactly the pings
of other clients — a pong carrying its identity, the same correlation id
and a copy of the original timestamp — and ignores self-pings; the
dedicated ping responder in `server.ts` answers every ping, its own
included; and a pong resolves a pending ping precisely when its
correlation id is truthy and pending and the pong's `originalSender` is
the prober itself — the responder identity is never checked. -/
theorem ping_pong_spec (selfId now : String) (nowMs startTime : Nat)
    (data : PingMsg) (pong : PongMsg) (pings : List (String × Nat)) :
    (data.clientId ≠ selfId →
      handlePing selfId now data
        = [⟨selfId, data.clientId, data.correlationId, data.timestamp, now⟩]) ∧
    (data.clientId = selfId → handlePing selfId now data = []) ∧
    (pingResponderHandle selfId now data
        = [⟨selfId, data.clientId, data.correlationId, data.timestamp, now⟩]) ∧
    (lookupKey pong.correlationId pings = some startTime →
      pong.correlationId ≠ "" → pong.originalSender = selfId →
      handlePong selfId nowMs pings pong
        = (eraseKey pong.correlationId pings,
           [⟨nowMs - startTime, pong.responderId⟩])) ∧
    (lookupKey pong.correlationId pings = none →
      handlePong selfId nowMs pings pong = (pings, [])) ∧
    (pong.originalSender ≠ selfId →
      handlePong selfId nowMs pings pong = (pings, [])) := by
  refine ⟨?_, ?_, rfl, ?_, ?_, ?_⟩
  · intro h
    simp [handlePing, h]
  · intro h
    simp [handlePing, h]
  · intro hlook hcid hos
    simp [handlePong, hlook, hcid, hos]
  · intro hlook
    simp [handlePong, hlook]
  · intro hos
    cases hl : lookupKey pong.correlationId pings with
    | none => simp [handlePong, hl]
    | some st => simp [handlePong, hl, hos]

/-! ## Theorems: malformed payloads (C4) -/

/-- C4 counterexample: a response on the pending request's response topic
with matching correlation data and a body that is not valid JSON is not
silently discarded — it settles the promise with the
`Invalid JSON response` rejection, propagating the failure to the caller. -/
theorem malformed_response_rejects_request :
    responseHandler "weather/request/reading/response/c/ab" "ab" parse42
        ReqState.pending
        ⟨"weather/request/reading/response/c/ab", "not-json", some "ab"⟩
      = ReqState.rejectedInvalidJson ∧
    (ReqState.rejectedInvalidJson : ReqState Nat) ≠ ReqState.pending := by
  exact ⟨by decide, by decide⟩

/-- C4 (amended): a payload that fails to parse is discarded and logged
without effect on the ping and pong listeners (the `try`/`catch` in
`setupListeners`); but on the request path a correlation-matching response
whose body fails to parse rejects the pending request's promise with an
invalid-JSON error — that one failure is propagated to the caller. -/
theorem malformed_payload_handling (selfId now : String) (nowMs : Nat)
    (parsePing : String → Option PingMsg) (parsePong : String → Option PongMsg)
    (parse : String → Option Nat) (rt cd : String)
    (pings : List (String × Nat)) (body : String) (p : Packet)
    (hping : parsePing body = none) (hpong : parsePong body = none)
    (ht : p.topic = rt) (hcd : p.correlationData = some cd)
    (hbad : parse p.body = none) :
    pingListener selfId now parsePing body = [] ∧
    pongListener selfId nowMs parsePong pings body = (pings, []) ∧
    responseHandler rt cd parse ReqState.pending p
      = ReqState.rejectedInvalidJson := by
  refine ⟨?_, ?_, ?_⟩
  · simp [pingListener, hping]
  · simp [pongListener, hpong]
  · simp [responseHandler, ht, hcd, hbad]

/-- Witness for C4: concrete parsers that fail on the body `not-json`. -/
theorem malformed_payload_handling_witness :
    pingListener "client-a" "T1" (fun _ => none) "not-json" = [] ∧
    pongListener "client-a" 0 (fun _ => none) [] "not-json" = ([], []) ∧
    responseHandler "rt0" "cd0" parse42 ReqState.pending
        ⟨"rt0", "not-json", some "cd0"⟩ = ReqState.rejectedInvalidJson :=
  malformed_payload_handling "client-a" "T1" 0 (fun _ => none) (fun _ => none)
    parse42 "rt0" "cd0" [] "not-json" ⟨"rt0", "not-json", some "cd0"⟩
    rfl rfl rfl rfl (by decide)

/-! ## Theorems: request/response lifecycle (C2) -/

theorem responseHandler_not_pending {α : Type} (rt cd : String)
    (parse : String → Option α) (s : ReqState α) (p : Packet)
    (h : s ≠ ReqState.pending) : responseHandler rt cd parse s p = s := by
  cases s with
  | pending => exact absurd rfl h
  | resolved v => rfl
  | rejectedTimeout => rfl
  | rejectedInvalidJson => rfl

theorem reqTimeoutFire_not_pending {α : Type} (s : ReqState α)
    (h : s ≠ ReqState.pending) : reqTimeoutFire s = s := by
  cases s with
  | pending => exact absurd rfl h
  | resolved v => rfl
  | rejectedTimeout => rfl
  | rejectedInvalidJson => rfl

theorem reqTimeoutFire_ne_pending {α : Type} (s : ReqState α) :
    reqTimeoutFire s ≠ ReqState.pending := by
  cases s <;> simp [reqTimeoutFire]

theorem reqTimeoutFire_eq_resolved {α : Type} (s : ReqState α) (v : α)
    (h : reqTimeoutFire s = ReqState.resolved v) : s = ReqState.resolved v := by
  cases s with
  | pending => simp [reqTimeoutFire] at h
  | resolved w => exact h
  | rejectedTimeout => simp [reqTimeoutFire] at h
  | rejectedInvalidJson => simp [reqTimeoutFire] at h

theorem responseHandler_no_match {α : Type} (rt cd : String)
    (parse : String → Option α) (p : Packet)
    (h : ¬ (p.topic = rt ∧ p.correlationData = some cd)) :
    responseHandler rt cd parse ReqState.pending p = ReqState.pending := by
  by_cases ht : p.topic = rt
  · cases hcd : p.correlationData with
    | none => simp [responseHandler, ht, hcd]
    | some received =>
        have hne : received ≠ cd := fun hr => h ⟨ht, by rw [hcd, hr]⟩
        simp [responseHandler, ht, hcd, hne]
  · simp [responseHandler, ht]

theorem responseHandler_resolved_cases {α : Type} (rt cd : String)
    (parse : String → Option α) (s : ReqState α) (p : Packet) (v : α)
    (h : responseHandler rt cd parse s p = ReqState.resolved v) :
    s = ReqState.resolved v ∨
    (s = ReqState.pending ∧ p.topic = rt ∧ p.correlationData = some cd ∧
      parse p.body = some v) := by
  cases s with
  | pending =>
      right
      refine ⟨rfl, ?_⟩
      by_cases ht : p.topic = rt
      · cases hcd : p.correlationData with
        | none => simp [responseHandler, ht, hcd] at h
        | some received =>
            by_cases hrc : received = cd
            · cases hp : parse p.body with
              | none => simp [responseHandler, ht, hcd, hrc, hp] at h
              | some w =>
                  simp only [responseHandler, ht, if_true, hcd, hrc, hp] at h
                  refine ⟨ht, ?_, ?_⟩
                  · rw [hrc]
                  · cases h
                    rfl
            · simp [responseHandler, ht, hcd, hrc] at h
      · simp [responseHandler, ht] at h
  | resolved w => exact Or.inl h
  | rejectedTimeout => simp [responseHandler] at h
  | rejectedInvalidJson => simp [responseHandler] at h

theorem runReq_foldl_resolved {α : Type} (rt cd : String)
    (parse : String → Option α) (D : Nat) (events : List (Nat × Packet))
    (s : ReqState α) (v : α)
    (h : events.foldl (runReqStep rt cd parse D) s = ReqState.resolved v) :
    s = ReqState.resolved v ∨
    ∃ e ∈ events, e.1 < D ∧ e.2.topic = rt ∧ e.2.correlationData = some cd ∧
      parse e.2.body = some v := by
  induction events generalizing s with
  | nil => exact Or.inl h
  | cons e rest ih =>
    rcases ih (runReqStep rt cd parse D s e) h with hstep | ⟨e', he', hrest⟩
    · rcases responseHandler_resolved_cases rt cd parse _ e.2 v hstep with
        h1 | ⟨hpend, ht, hcd, hp⟩
      · left
        by_cases hD : D ≤ e.1
        · rw [if_pos hD] at h1
          exact reqTimeoutFire_eq_resolved s v h1
        · rw [if_neg hD] at h1
          exact h1
      · right
        by_cases hD : D ≤ e.1
        · rw [if_pos hD] at hpend
          exact absurd hpend (reqTimeoutFire_ne_pending s)
        · exact ⟨e, List.mem_cons_self e rest, lt_of_not_le hD, ht, hcd, hp⟩
    · exact Or.inr ⟨e', List.mem_cons_of_mem e he', hrest⟩

theorem runReq_foldl_no_match {α : Type} (rt cd : String)
    (parse : String → Option α) (D : Nat) (events : List (Nat × Packet))
    (s : ReqState α)
    (hs : s = ReqState.pending ∨ s = ReqState.rejectedTimeout)
    (hnm : ∀ e ∈ events, e.1 < D →
      ¬ (e.2.topic = rt ∧ e.2.correlationData = some cd)) :
    events.foldl (runReqStep rt cd parse D) s = ReqState.pending ∨
    events.foldl (runReqStep rt cd parse D) s = ReqState.rejectedTimeout := by
  induction events generalizing s with
  | nil => exact hs
  | cons e rest ih =>
    apply ih
    · rcases hs with hp | hp <;> subst hp
      · by_cases hD : D ≤ e.1
        · right
          simp only [runReqStep, if_pos hD, reqTimeoutFire]
          exact responseHandler_not_pending rt cd parse _ e.2 (by simp)
        · left
          simp only [runReqStep, if_neg hD]
          exact responseHandler_no_match rt cd parse e.2
            (hnm e (List.mem_cons_self e rest) (lt_of_not_le hD))
      · right
        have habs : reqTimeoutFire (ReqState.rejectedTimeout : ReqState α)
            = ReqState.rejectedTimeout := rfl
        by_cases hD : D ≤ e.1 <;>
          simp only [runReqStep, if_pos, if_neg, hD, habs, if_true, if_false] <;>
          exact responseHandler_not_pending rt cd parse _ e.2 (by simp)
    · intro e' he' hlt
      exact hnm e' (List.mem_cons_of_mem e he') hlt

/-- C2 counterexample: a single matching response whose body is not valid
JSON arrives at time 100, well before the 5000 ms deadline; the promise is
rejected with the invalid-JSON error — neither a resolution with a parsed
payload nor a timeout rejection, a third outcome the claim excludes. -/
theorem request_third_outcome_counterexample :
    runRequest "weather/request/reading/response/c/ee" "ee" parse42 5000
        [(100, ⟨"weather/request/reading/response/c/ee", "not-json", some "ee"⟩)]
      = ReqState.rejectedInvalidJson ∧
    (ReqState.rejectedInvalidJson : ReqState Nat) ≠ ReqState.rejectedTimeout := by
  exact ⟨by decide, by decide⟩

/-- C2 (amended): every request settles — never left pending; a resolution
carries the parsed payload of some response that arrived before the
deadline on the response topic with the request's correlation data; if no
response with matching topic and correlation data arrives before the
deadline, the request is rejected with the timeout error at the deadline;
a response with missing or mismatched correlation data is silently dropped
(the pending state is unchanged); and a matching response whose body fails
to parse rejects the promise with the invalid-JSON error. -/
theorem request_resolution_outcomes {α : Type} (rt cd : String)
    (parse : String → Option α) (D : Nat) (events : List (Nat × Packet)) :
    (runRequest rt cd parse D events ≠ ReqState.pending) ∧
    (∀ v, runRequest rt cd parse D events = ReqState.resolved v →
      ∃ e ∈ events, e.1 < D ∧ e.2.topic = rt ∧ e.2.correlationData = some cd ∧
        parse e.2.body = some v) ∧
    ((∀ e ∈ events, e.1 < D →
        ¬ (e.2.topic = rt ∧ e.2.correlationData = some cd)) →
      runRequest rt cd parse D events = ReqState.rejectedTimeout) ∧
    (∀ p : Packet, p.correlationData ≠ some cd →
      responseHandler rt cd parse ReqState.pending p = ReqState.pending) ∧
    (∀ p : Packet, p.topic = rt → p.correlationData = some cd →
      parse p.body = none →
      responseHandler rt cd parse ReqState.pending p
        = ReqState.rejectedInvalidJson) := by
  refine ⟨?_, ?_, ?_, ?_, ?_⟩
  · exact reqTimeoutFire_ne_pending _
  · intro v h
    have hfold : events.foldl (runReqStep rt cd parse D) ReqState.pending
        = ReqState.resolved v :=
      reqTimeoutFire_eq_resolved _ v h
    rcases runReq_foldl_resolved rt cd parse D events ReqState.pending v hfold with
      hcontra | hex
    · exact absurd hcontra.symm (by simp)
    · exact hex
  · intro hnm
    rcases runReq_foldl_no_match rt cd parse D events ReqState.pending
      (Or.inl rfl) hnm with hp | hp <;> simp [runRequest, hp, reqTimeoutFire]
  · intro p hne
    exact responseHandler_no_match rt cd parse p (fun hx => hne hx.2)
  · intro p ht hcd hbad
    simp [responseHandler, ht, hcd, hbad]

/-! ## Theorems: request handler `onRequest` (C6, C9) -/

/-- C6 counterexample: a conformant request (both MQTT 5.0 properties
present) whose body fails to parse does not invoke the handler — the
`catch` publishes an error payload instead; the claim asserts the handler
is invoked on every such message. -/
theorem onRequest_unparseable_body_counterexample :
    (onRequestHandle "weather/request/reading" parse42
        (fun n => Except.ok (n + 1))
        ⟨"weather/request/reading", "not-json", some "rt0", some "cd0"⟩).2 = 0 ∧
    (onRequestHandle "weather/request/reading" parse42
        (fun n => Except.ok (n + 1))
        ⟨"weather/request/reading", "not-json", some "rt0", some "cd0"⟩).1
      = [⟨"rt0", "cd0", RespPayload.err "invalid request JSON"⟩] := by
  exact ⟨by decide, by decide⟩

/-- C6 (amended): for every inbound message on the registered topic that
carries both a response topic and correlation data, exactly one response
is published to that message's response topic with the correlation data
echoed unchanged; the handler is invoked precisely when the body parses —
its result is the payload on success, and a handler error or an
unparseable body yields an error-shaped payload instead of a thrown
error; messages lacking either property are ignored (no invocation, no
response). -/
theorem onRequest_spec {α β : Type} (requestTopic rt cd : String)
    (parse : String → Option α) (handler : α → Except String β)
    (m : ReqPacket) (htop : m.topic = requestTopic)
    (hrt : m.responseTopic = some rt) (hcd : m.correlationData = some cd) :
    ((onRequestHandle requestTopic parse handler m).1.map
        (fun pub => pub.topic) = [rt]) ∧
    ((onRequestHandle requestTopic parse handler m).1.map
        (fun pub => pub.correlationData) = [cd]) ∧
    ((onRequestHandle requestTopic parse handler m).2
        = if (parse m.body).isSome then 1 else 0) ∧
    (∀ req v, parse m.body = some req → handler req = Except.ok v →
      (onRequestHandle requestTopic parse handler m).1
        = [⟨rt, cd, RespPayload.ok v⟩]) ∧
    (∀ req e, parse m.body = some req → handler req = Except.error e →
      (onRequestHandle requestTopic parse handler m).1
        = [⟨rt, cd, RespPayload.err e⟩]) ∧
    (parse m.body = none →
      (onRequestHandle requestTopic parse handler m).1
        = [⟨rt, cd, RespPayload.err "invalid request JSON"⟩]) ∧
    (∀ m' : ReqPacket, m'.responseTopic = none ∨ m'.correlationData = none →
      onRequestHandle requestTopic parse handler m' = ([], 0)) := by
  refine ⟨?_, ?_, ?_, ?_, ?_, ?_, ?_⟩
  · cases hp : parse m.body with
    | none => simp [onRequestHandle, htop, hrt, hcd, hp]
    | some req =>
        cases hh : handler req <;>
          simp [onRequestHandle, htop, hrt, hcd, hp, hh]
  · cases hp : parse m.body with
    | none => simp [onRequestHandle, htop, hrt, hcd, hp]
    | some req =>
        cases hh : handler req <;>
          simp [onRequestHandle, htop, hrt, hcd, hp, hh]
  · cases hp : parse m.body with
    | none => simp [onRequestHandle, htop, hrt, hcd, hp]
    | some req =>
        cases hh : handler req <;>
          simp [onRequestHandle, htop, hrt, hcd, hp, hh]
  · intro req v hp hh
    simp [onRequestHandle, htop, hrt, hcd, hp, hh]
  · intro req e hp hh
    simp [onRequestHandle, htop, hrt, hcd, hp, hh]
  · intro hp
    simp [onRequestHandle, htop, hrt, hcd, hp]
  · intro m' hmiss
    by_cases ht' : m'.topic = requestTopic
    · rcases hmiss with hmiss | hmiss <;>
        cases hrt2 : m'.responseTopic <;>
          simp_all [onRequestHandle]
    · simp [onRequestHandle, ht']

/-- Witness for C6: a conformant request with body `42` handled by a
concrete incrementing handler. -/
theorem onRequest_spec_witness :
    ((onRequestHandle "weather/request/reading" parse42
        (fun n => Except.ok (n + 1))
        ⟨"weather/request/reading", "42", some "rt0", some "cd0"⟩).1.map
          (fun pub => pub.topic) = ["rt0"]) ∧
    ((onRequestHandle "weather/request/reading" parse42
        (fun n => Except.ok (n + 1))
        ⟨"weather/request/reading", "42", some "rt0", some "cd0"⟩).1.map
          (fun pub => pub.correlationData) = ["cd0"]) ∧
    ((onRequestHandle "weather/request/reading" parse42
        (fun n => Except.ok (n + 1))
        ⟨"weather/request/reading", "42", some "rt0", some "cd0"⟩).2
        = if (parse42 "42").isSome then 1 else 0) ∧
    (∀ req v, parse42 "42" = some req →
      (fun n => Except.ok (n + 1) : Nat → Except String Nat) req = Except.ok v →
      (onRequestHandle "weather/request/reading" parse42
        (fun n => Except.ok (n + 1))
        ⟨"weather/request/reading", "42", some "rt0", some "cd0"⟩).1
        = [⟨"rt0", "cd0", RespPayload.ok v⟩]) ∧
    (∀ req e, parse42 "42" = some req →
      (fun n => Except.ok (n + 1) : Nat → Except String Nat) req = Except.error e →
      (onRequestHandle "weather/request/reading" parse42
        (fun n => Except.ok (n + 1))
        ⟨"weather/request/reading", "42", some "rt0", some "cd0"⟩).1
        = [⟨"rt0", "cd0", RespPayload.err e⟩]) ∧
    (parse42 "42" = none →
      (onRequestHandle "weather/request/reading" parse42
        (fun n => Except.ok (n + 1))
        ⟨"weather/request/reading", "42", some "rt0", some "cd0"⟩).1
        = [⟨"rt0", "cd0", RespPayload.err "invalid request JSON"⟩]) ∧
    (∀ m' : ReqPacket, m'.responseTopic = none ∨ m'.correlationData = none →
      onRequestHandle "weather/request/reading" parse42
        (fun n => Except.ok (n + 1)) m' = ([], 0)) :=
  onRequest_spec "weather/request/reading" "rt0" "cd0" parse42
    (fun n => Except.ok (n + 1))
    ⟨"weather/request/reading", "42", some "rt0", some "cd0"⟩ rfl rfl rfl

/-- C9: `onRequest` called twice for the same topic registers two `message`
listeners — the time-stamped named property stores a reference but
deduplicates nothing — so a single conforming inbound request is handled
twice and answered twice, where the claim promises a single invocation and
a single response. -/
theorem onRequest_duplicate_handlers :
    (dispatchRequest parse42 (fun n => Except.ok (n + 1))
        (onRequestRegister "weather/request/reading" 1
          (onRequestRegister "weather/request/reading" 0 ⟨[], []⟩))
        ⟨"weather/request/reading", "42", some "rt0", some "cd0"⟩).2 = 2 ∧
    (dispatchRequest parse42 (fun n => Except.ok (n + 1))
        (onRequestRegister "weather/request/reading" 1
          (onRequestRegister "weather/request/reading" 0 ⟨[], []⟩))
        ⟨"weather/request/reading", "42", some "rt0", some "cd0"⟩).1.length = 2 := by
  exact ⟨by decide, by decide⟩

/-! ## Theorems: single resolution of pending pings and requests (C8) -/

theorem countKey_eraseKey_le (k id : String) (m : List (String × Nat)) :
    countKey id (eraseKey k m) ≤ countKey id m := by
  by_cases h : id = k
  · subst h
    rw [countKey_eraseKey]
    exact Nat.zero_le _
  · rw [countKey_eraseKey_ne k id h]

theorem resCount_append (id : String) (a b : List (String × Bool)) :
    resCount id (a ++ b) = resCount id a + resCount id b := by
  simp [resCount, List.filter_append]

theorem resCount_single (id cid : String) (b : Bool) :
    resCount id [(cid, b)] = if cid = id then 1 else 0 := by
  by_cases h : cid = id <;> simp [resCount, List.filter, h]

theorem sendCount_cons (id : String) (op : PingOp) (ops : List PingOp) :
    sendCount id (op :: ops) = sendDelta id op + sendCount id ops := by
  cases op with
  | send i now =>
      by_cases h : i = id
      · simp [sendCount, sendDelta, List.filter, h]
        omega
      · simp [sendCount, sendDelta, List.filter, h]
  | pong data now => simp [sendCount, sendDelta, List.filter]
  | timeoutFire i => simp [sendCount, sendDelta, List.filter]

theorem probeStep_count_le (selfId id : String) (s : ProbeState) (op : PingOp)
    (h : countKey id s.pending ≤ 1) :
    countKey id (probeStep selfId s op).pending ≤ 1 := by
  cases op with
  | send i now =>
      by_cases hi : i = id
      · subst hi
        simp [probeStep, sendPing, setKey, countKey, countKey_eraseKey]
      · have := countKey_eraseKey_ne i id (fun hh => hi hh.symm) s.pending
        simp [probeStep, sendPing, setKey, countKey, hi, this]
        omega
  | pong data now =>
      simp only [probeStep]
      cases hl : lookupKey data.correlationId s.pending with
      | none => simpa [handlePong, hl] using h
      | some st =>
          by_cases hcond : data.correlationId ≠ "" ∧ data.originalSender = selfId
          · have := countKey_eraseKey_le data.correlationId id s.pending
            simp [handlePong, hl, hcond]
            omega
          · simpa [handlePong, hl, hcond] using h
  | timeoutFire i =>
      simp only [probeStep]
      cases hl : lookupKey i s.pending with
      | none => simpa [pingTimeoutFire, hl] using h
      | some st =>
          have := countKey_eraseKey_le i id s.pending
          simp [pingTimeoutFire, hl]
          omega

theorem probeStep_fresh_mono (selfId : String) (s : ProbeState) (op : PingOp)
    (h : (probeStep selfId s op).fresh = true) : s.fresh = true := by
  cases op with
  | send i now =>
      simp only [probeStep, Bool.and_eq_true] at h
      exact h.1
  | pong data now => exact h
  | timeoutFire i => exact h

theorem probeStep_accounting (selfId id : String) (s : ProbeState) (op : PingOp)
    (hc : countKey id s.pending ≤ 1)
    (hf : (probeStep selfId s op).fresh = true) :
    resCount id (probeStep selfId s op).resolutions
        + countKey id (probeStep selfId s op).pending
      = resCount id s.resolutions + countKey id s.pending + sendDelta id op := by
  cases op with
  | send i now =>
      simp only [probeStep, Bool.and_eq_true, Option.isNone_iff_eq_none] at hf
      have hnone : lookupKey i s.pending = none := hf.2
      by_cases hi : i = id
      · subst hi
        have hz : countKey i s.pending = 0 :=
          (lookupKey_none_iff_countKey_zero i s.pending).mp hnone
        simp [probeStep, sendPing, setKey, countKey, countKey_eraseKey, hz,
          sendDelta]
      · have hne := countKey_eraseKey_ne i id (fun hh => hi hh.symm) s.pending
        simp [probeStep, sendPing, setKey, countKey, hi, hne, sendDelta]
  | pong data now =>
      simp only [probeStep]
      cases hl : lookupKey data.correlationId s.pending with
      | none => simp [handlePong, hl, sendDelta]
      | some st =>
          by_cases hcond : data.correlationId ≠ "" ∧ data.originalSender = selfId
          · by_cases hi : data.correlationId = id
            · have hone : countKey data.correlationId s.pending = 1 := by
                have hnz : countKey data.correlationId s.pending ≠ 0 := by
                  intro hz
                  rw [← lookupKey_none_iff_countKey_zero] at hz
                  rw [hz] at hl
                  cases hl
                have hle : countKey data.correlationId s.pending ≤ 1 := by
                  rw [hi]; exact hc
                omega
              subst hi
              simp [handlePong, hl, hcond, resCount_append, resCount_single,
                countKey_eraseKey, hone, sendDelta]
            · have hne2 := countKey_eraseKey_ne data.correlationId id
                (fun hh => hi hh.symm) s.pending
              simp [handlePong, hl, hcond, resCount_append, resCount_single, hi,
                hne2, sendDelta]
          · simp [handlePong, hl, hcond, sendDelta]
  | timeoutFire i =>
      simp only [probeStep]
      cases hl : lookupKey i s.pending with
      | none => simp [pingTimeoutFire, hl, sendDelta]
      | some st =>
          by_cases hi : i = id
          · have hone : countKey i s.pending = 1 := by
              have hnz : countKey i s.pending ≠ 0 := by
                intro hz
                rw [← lookupKey_none_iff_countKey_zero] at hz
                rw [hz] at hl
                cases hl
              have hle : countKey i s.pending ≤ 1 := by
                rw [hi]; exact hc
              omega
            subst hi
            simp [pingTimeoutFire, hl, resCount_append, resCount_single,
              countKey_eraseKey, hone, sendDelta]
          · have hne2 := countKey_eraseKey_ne i id (fun hh => hi hh.symm) s.pending
            simp [pingTimeoutFire, hl, resCount_append, resCount_single, hi,
              hne2, sendDelta]

theorem probe_foldl_inv (selfId id : String) (ops : List PingOp) (s : ProbeState)
    (hc : countKey id s.pending ≤ 1) :
    countKey id (ops.foldl (probeStep selfId) s).pending ≤ 1 ∧
    ((ops.foldl (probeStep selfId) s).fresh = true → s.fresh = true) ∧
    ((ops.foldl (probeStep selfId) s).fresh = true →
      resCount id (ops.foldl (probeStep selfId) s).resolutions
          + countKey id (ops.foldl (probeStep selfId) s).pending
        = resCount id s.resolutions + countKey id s.pending + sendCount id ops) := by
  induction ops generalizing s with
  | nil =>
    refine ⟨hc, fun h => h, fun _ => ?_⟩
    simp [sendCount]
  | cons op ops ih =>
    have hc' := probeStep_count_le selfId id s op hc
    obtain ⟨ih1, ih2, ih3⟩ := ih (probeStep selfId s op) hc'
    rw [List.foldl_cons]
    refine ⟨ih1, ?_, ?_⟩
    · intro h
      exact probeStep_fresh_mono selfId s op (ih2 h)
    · intro h
      have hstep := probeStep_accounting selfId id s op hc (ih2 h)
      rw [ih3 h, hstep, sendCount_cons]
      omega

/-- C8 counterexample: two `sendPing` calls in the same millisecond with
the same random draw generate the same correlation id, so the id is
reused while pending (the monitor flag `fresh` turns false) and the second
`Map.set` overwrites the pending entry; after both cleanup timeouts only
one resolution was ever logged for the two pings — not one each. -/
theorem ping_id_reuse_counterexample :
    genPingId 5 3 = genPingId 5 3 ∧
    (probeRun "client-a"
        [PingOp.send (genPingId 5 3) 5, PingOp.send (genPingId 5 3) 5]).fresh
      = false ∧
    sendCount (genPingId 5 3)
        [PingOp.send (genPingId 5 3) 5, PingOp.send (genPingId 5 3) 5,
         PingOp.timeoutFire (genPingId 5 3), PingOp.timeoutFire (genPingId 5 3)]
      = 2 ∧
    resCount (genPingId 5 3)
        (probeRun "client-a"
          [PingOp.send (genPingId 5 3) 5, PingOp.send (genPingId 5 3) 5,
           PingOp.timeoutFire (genPingId 5 3),
           PingOp.timeoutFire (genPingId 5 3)]).resolutions
      = 1 := by
  refine ⟨rfl, ?_, ?_, ?_⟩ <;> decide

/-- C8 (amended): the `pingTimestamps` map holds at most one pending entry
per correlation id; along any trace in which `sendPing` never generates an
id that is still pending (the `fresh` monitor), resolutions and pending
entries per id balance the sends exactly — each ping is resolved at most
once, by a matching pong or by its timeout, never both, and exactly once
once its entry leaves the map; pending requests settle at most once as
well: a settled request promise is unaffected by further responses or by
the deadline timer.  When the generator does collide, `Map.set` overwrites
the pending entry and the claim's reuse-freedom fails. -/
theorem ping_single_resolution (selfId id : String) (ops : List PingOp) :
    countKey id (probeRun selfId ops).pending ≤ 1 ∧
    ((probeRun selfId ops).fresh = true →
      resCount id (probeRun selfId ops).resolutions
          + countKey id (probeRun selfId ops).pending = sendCount id ops) ∧
    (∀ (α : Type) (rt cd : String) (parse : String → Option α)
        (s : ReqState α) (p : Packet),
      s ≠ ReqState.pending → responseHandler rt cd parse s p = s) ∧
    (∀ (α : Type) (s : ReqState α),
      s ≠ ReqState.pending → reqTimeoutFire s = s) := by
  obtain ⟨h1, h2, h3⟩ := probe_foldl_inv selfId id ops probeInit
    (by simp [probeInit, countKey])
  refine ⟨h1, ?_, ?_, ?_⟩
  · intro hf
    have hacc := h3 hf
    simpa [probeInit, resCount, countKey] using hacc
  · intro α rt cd parse s p hs
    exact responseHandler_not_pending rt cd parse s p hs
  · intro α s hs
    exact reqTimeoutFire_not_pending s hs

end MQTTSystem
